import Mathlib

/-!
Verification of the Game Session Controller of the chess GUI
(`examples/chess-gui/src/lib.rs`).  The controller (`GameUI`) and its
helper functions are translated directly from the Rust source.  The
rules engine (`chess_engine` crate) is an external collaborator: its
data types are modelled from the spec's data model and its two adapter
calls (`is_legal_move`, `play_move`) are kept abstract as parameters,
so every theorem quantifies over all possible engine behaviours.
-/

namespace ChessGui

/-- Modelled from the spec: `Position` is an integer (row, column) pair,
0-based, from the external `chess_engine` crate (`Position::new(r, c)`). -/
structure Position where
  row : Int
  col : Int
deriving DecidableEq, Repr

/-- Modelled from the spec: `Color` is the binary enum {White, Black}
from the external `chess_engine` crate. -/
inductive Color where
  | White
  | Black
deriving DecidableEq, Repr

/-- Modelled from the spec: the `Display` rendering of a `Color`,
used by `format!("{} wins!", winner)`. -/
def Color.str : Color → String
  | .White => "White"
  | .Black => "Black"

/-- Modelled from the spec: `Piece` is a tagged union over
{King, Queen, Rook, Bishop, Knight, Pawn}, each variant carrying an
owning color and current position (external `chess_engine` crate). -/
inductive Piece where
  | King (c : Color) (p : Position)
  | Queen (c : Color) (p : Position)
  | Rook (c : Color) (p : Position)
  | Bishop (c : Color) (p : Position)
  | Knight (c : Color) (p : Position)
  | Pawn (c : Color) (p : Position)
deriving DecidableEq, Repr

/-- Modelled from the spec: `piece.get_color()` of the external crate. -/
def Piece.get_color : Piece → Color
  | .King c _ => c
  | .Queen c _ => c
  | .Rook c _ => c
  | .Bishop c _ => c
  | .Knight c _ => c
  | .Pawn c _ => c

/-- Modelled from the spec: `Move` is a tagged union
PlainMove(from, to) (named `Move::Piece` in the source) /
KingSideCastle / QueenSideCastle / Promotion(from, to, piece)
(external `chess_engine` crate). -/
inductive Move where
  | Piece (f t : Position)
  | KingSideCastle
  | QueenSideCastle
  | Promotion (f t : Position) (piece : Piece)
deriving DecidableEq, Repr

/-- Modelled from the spec: the board is an opaque 8x8 snapshot that
records which piece occupies each square and whose turn it is.  The
spec fixes the board to 8x8 with 0-based coordinates, so squares
outside that range hold no piece (see `Board.get_piece`). -/
structure Board where
  squares : Position → Option Piece
  turn : Color

/-- Modelled from the spec: `board.get_piece(pos)` of the external
crate; the board is 8x8 and 0-based, so any out-of-range position
(such as the sentinel `Position::new(-1, -1)`) holds no piece. -/
def Board.get_piece (b : Board) (p : Position) : Option Piece :=
  if 0 ≤ p.row ∧ p.row < 8 ∧ 0 ≤ p.col ∧ p.col < 8 then b.squares p else none

/-- Modelled from the spec: `board.get_turn_color()` of the external
crate — the side-to-move recorded by the current board snapshot. -/
def Board.get_turn_color (b : Board) : Color := b.turn

/-- Modelled from the spec: `board.has_ally_piece(pos, color)` of the
external crate — whether `pos` is occupied by a piece of `color`. -/
def Board.has_ally_piece (b : Board) (p : Position) (c : Color) : Bool :=
  match b.get_piece p with
  | some piece => if piece.get_color = c then true else false
  | none => false

/-- Modelled from the spec: `GameResult` is the closed union
Continuing(nextBoard) / Victory(color) / Stalemate /
IllegalMove(move), produced exclusively by the engine's `play_move`. -/
inductive GameResult where
  | Continuing (b : Board)
  | Victory (c : Color)
  | Stalemate
  | IllegalMove (m : Move)

/-- Whether a result is `GameResult.Continuing`. -/
def GameResult.isContinuing : GameResult → Bool
  | .Continuing _ => true
  | _ => false

/-- The Rules Engine Adapter: the two synchronous calls the controller
makes (`board.is_legal_move(m, color)` and `board.play_move(m)`).
Kept fully abstract; theorems quantify over every `Engine`. -/
structure Engine where
  is_legal_move : Board → Move → Color → Bool
  play_move : Board → Move → GameResult

/-- The constant `HUMAN_PLAYER: Color = Color::White` (lib.rs:37). -/
def HUMAN_PLAYER : Color := .White

/-- The constant `AI_PLAYER: Color = Color::Black` (lib.rs:38). -/
def AI_PLAYER : Color := .Black

/-- The controller state `struct GameUI` (lib.rs:66-73), minus the
presentation-only fields. -/
structure GameUI where
  board : Board
  from_square : Option Position
  promotion_state : Option (Position × Position)
  game_over_message : Option String
  captured_white : List Piece
  captured_black : List Piece

/-- The inbound events `enum Message` (lib.rs:76-81). -/
inductive Message where
  | SelectSquare (pos : Position)
  | Promote (piece : Piece)
  | NewGame
  | CpuMove (m : Move)

/-- The outbound effect of one `update` call: `Command::none()` or the
`Command::perform` that requests an opponent move on the given board
snapshot (lib.rs:289). -/
inductive Cmd where
  | none
  | cpuRequest (b : Board)

/-- Result of one `update` call: the new controller state, the
outbound command, and — as pure instrumentation for stating
properties about "the move just applied" — the `play_move` call this
event made (the submitted move and the adapter's result), if any.
The `state` and `cmd` components mirror the source exactly. -/
structure Step where
  state : GameUI
  cmd : Cmd
  applied : Option (Move × GameResult)

/-- The function `determine_move` (lib.rs:328-335). -/
def determine_move (f t : Position) (board : Board) : Move :=
  match board.get_piece f with
  | some (.King _ _) =>
      if (f.col - t.col).natAbs = 2 then
        if t.col > f.col then Move.KingSideCastle else Move.QueenSideCastle
      else Move.Piece f t
  | _ => Move.Piece f t

/-- The function `is_promotion_move` (lib.rs:337-343). -/
def is_promotion_move (f t : Position) (board : Board) : Bool :=
  match board.get_piece f with
  | some (.Pawn color _) =>
      let promotion_rank : Int := if color = Color.White then 7 else 0
      if t.row = promotion_rank then true else false
  | _ => false

/-- The function `cpu_move_target` (lib.rs:345-350): the square inspected for a
capture; the sentinel `(-1, -1)` for castle moves. -/
def cpu_move_target (m : Move) : Position :=
  match m with
  | .Piece _ t => t
  | .Promotion _ t _ => t
  | _ => ⟨-1, -1⟩

/-- The method `GameUI::add_capture` (lib.rs:306-311): push the captured piece
onto the list matching its own color. -/
def add_capture (s : GameUI) (captured : Piece) : GameUI :=
  match captured.get_color with
  | .White => { s with captured_white := s.captured_white ++ [captured] }
  | .Black => { s with captured_black := s.captured_black ++ [captured] }

/-- The shared capture inspection
`if let Some(captured) = self.board.get_piece(cpu_move_target(m)) { self.add_capture(captured); }`
(lib.rs:134 and lib.rs:278). -/
def record_capture_at (s : GameUI) (b : Board) (p : Position) : GameUI :=
  match b.get_piece p with
  | some captured => add_capture s captured
  | none => s

/-- The message text of `GameUI::handle_game_over` (lib.rs:297-304).
The `Continuing` arm is `unreachable!()` in the source; callers only
pass terminal results, so that arm is never hit. -/
def game_over_text (result : GameResult) : String :=
  match result with
  | .Victory winner => winner.str ++ " wins!"
  | .Stalemate => "Stalemate!"
  | .IllegalMove _ => "Illegal Move!"
  | .Continuing _ => ""

/-- The method `GameUI::handle_game_over` (lib.rs:297-304): set the terminal
message. -/
def handle_game_over (s : GameUI) (result : GameResult) : GameUI :=
  { s with game_over_message := some (game_over_text result) }

/-- The method `GameUI::handle_move_result` (lib.rs:283-295): on `Continuing`
adopt the new board and, if it is now the AI's turn, request the
opponent move; otherwise enter game over. -/
def handle_move_result (s : GameUI) (result : GameResult) : GameUI × Cmd :=
  match result with
  | .Continuing next =>
      if next.get_turn_color = AI_PLAYER then
        ({ s with board := next }, Cmd.cpuRequest next)
      else
        ({ s with board := next }, Cmd.none)
  | r => (handle_game_over s r, Cmd.none)

/-- The method `GameUI::play_human_move` (lib.rs:276-281): reject illegal moves
with no state change; otherwise record any capture from the current
board, apply the move, and dispatch on the result. -/
def play_human_move (eng : Engine) (s : GameUI) (m : Move) : Step :=
  if eng.is_legal_move s.board m HUMAN_PLAYER then
    let s1 := record_capture_at s s.board (cpu_move_target m)
    let result := eng.play_move s.board m
    let hr := handle_move_result s1 result
    ⟨hr.1, hr.2, some (m, result)⟩
  else
    ⟨s, Cmd.none, none⟩

/-- The fresh controller state after `*self = GameUI::default();
self.board = *STARTING_BOARD...` (lib.rs:90-94 and lib.rs:100). -/
def initGame (sb : Board) : GameUI :=
  ⟨sb, none, none, none, [], []⟩

/-- The method `GameUI::update` (lib.rs:98-145), with the starting board `sb`
standing for the `STARTING_BOARD` global.  The source checks the
game-over gate (lib.rs:99-102) once before dispatching on the
message; here that leading gate is distributed into each of the four
message arms, which processes every event identically. -/
def update (eng : Engine) (sb : Board) (s : GameUI) : Message → Step
  | .Promote piece =>
      if s.game_over_message.isSome then ⟨s, Cmd.none, none⟩
      else
        match s.promotion_state with
        | some (f, t) =>
            play_human_move eng { s with promotion_state := none }
              (Move.Promotion f t piece)
        | none => ⟨s, Cmd.none, none⟩
  | .SelectSquare pos =>
      if s.game_over_message.isSome then ⟨s, Cmd.none, none⟩
      else if s.promotion_state.isSome then ⟨s, Cmd.none, none⟩
      else if s.board.get_turn_color = HUMAN_PLAYER then
        match s.from_square with
        | none =>
            if s.board.has_ally_piece pos HUMAN_PLAYER then
              ⟨{ s with from_square := some pos }, Cmd.none, none⟩
            else ⟨s, Cmd.none, none⟩
        | some f =>
            if is_promotion_move f pos s.board then
              ⟨{ s with promotion_state := some (f, pos),
                        from_square := none }, Cmd.none, none⟩
            else
              play_human_move eng { s with from_square := none }
                (determine_move f pos s.board)
      else ⟨s, Cmd.none, none⟩
  | .CpuMove m =>
      if s.game_over_message.isSome then ⟨s, Cmd.none, none⟩
      else if s.promotion_state.isSome then ⟨s, Cmd.none, none⟩
      else if s.board.get_turn_color = AI_PLAYER then
        let s1 := record_capture_at s s.board (cpu_move_target m)
        match eng.play_move s.board m with
        | .Continuing next =>
            ⟨{ s1 with board := next }, Cmd.none,
              some (m, GameResult.Continuing next)⟩
        | r => ⟨handle_game_over s1 r, Cmd.none, some (m, r)⟩
      else ⟨s, Cmd.none, none⟩
  | .NewGame =>
      if s.game_over_message.isSome then ⟨initGame sb, Cmd.none, none⟩
      else ⟨s, Cmd.none, none⟩

/-- The controller states reachable from a fresh game on starting
board `sb` under engine `eng`, by any sequence of events. -/
inductive Reachable (eng : Engine) (sb : Board) : GameUI → Prop where
  | init : Reachable eng sb (initGame sb)
  | step (s : GameUI) (msg : Message) :
      Reachable eng sb s → Reachable eng sb (update eng sb s msg).state

/-! ### Helper lemmas about the building blocks -/

theorem add_capture_board (s : GameUI) (c : Piece) :
    (add_capture s c).board = s.board := by
  unfold add_capture; split <;> rfl

theorem add_capture_from_square (s : GameUI) (c : Piece) :
    (add_capture s c).from_square = s.from_square := by
  unfold add_capture; split <;> rfl

theorem add_capture_promotion_state (s : GameUI) (c : Piece) :
    (add_capture s c).promotion_state = s.promotion_state := by
  unfold add_capture; split <;> rfl

theorem add_capture_message (s : GameUI) (c : Piece) :
    (add_capture s c).game_over_message = s.game_over_message := by
  unfold add_capture; split <;> rfl

theorem record_capture_at_board (s : GameUI) (b : Board) (p : Position) :
    (record_capture_at s b p).board = s.board := by
  unfold record_capture_at; split
  · exact add_capture_board _ _
  · rfl

theorem record_capture_at_from_square (s : GameUI) (b : Board) (p : Position) :
    (record_capture_at s b p).from_square = s.from_square := by
  unfold record_capture_at; split
  · exact add_capture_from_square _ _
  · rfl

theorem record_capture_at_promotion_state (s : GameUI) (b : Board) (p : Position) :
    (record_capture_at s b p).promotion_state = s.promotion_state := by
  unfold record_capture_at; split
  · exact add_capture_promotion_state _ _
  · rfl

theorem record_capture_at_message (s : GameUI) (b : Board) (p : Position) :
    (record_capture_at s b p).game_over_message = s.game_over_message := by
  unfold record_capture_at; split
  · exact add_capture_message _ _
  · rfl

/-- How `record_capture_at` changes the two capture lists: exactly the
occupying piece of the inspected square is appended, onto the list of
its own color. -/
theorem record_capture_at_captures (s : GameUI) (b : Board) (p : Position) :
    (∀ q, b.get_piece p = some q →
      (q.get_color = Color.White →
        (record_capture_at s b p).captured_white = s.captured_white ++ [q] ∧
        (record_capture_at s b p).captured_black = s.captured_black) ∧
      (q.get_color = Color.Black →
        (record_capture_at s b p).captured_white = s.captured_white ∧
        (record_capture_at s b p).captured_black = s.captured_black ++ [q])) ∧
    (b.get_piece p = none →
      (record_capture_at s b p).captured_white = s.captured_white ∧
      (record_capture_at s b p).captured_black = s.captured_black) := by
  constructor
  · intro q hq
    constructor
    · intro hw; simp [record_capture_at, hq, add_capture, hw]
    · intro hb; simp [record_capture_at, hq, add_capture, hb]
  · intro hn
    simp [record_capture_at, hn]

theorem handle_move_result_captured_white (s : GameUI) (r : GameResult) :
    (handle_move_result s r).1.captured_white = s.captured_white := by
  unfold handle_move_result handle_game_over; split
  · split <;> rfl
  · rfl

theorem handle_move_result_captured_black (s : GameUI) (r : GameResult) :
    (handle_move_result s r).1.captured_black = s.captured_black := by
  unfold handle_move_result handle_game_over; split
  · split <;> rfl
  · rfl

theorem handle_move_result_promotion_state (s : GameUI) (r : GameResult) :
    (handle_move_result s r).1.promotion_state = s.promotion_state := by
  unfold handle_move_result handle_game_over; split
  · split <;> rfl
  · rfl

theorem handle_move_result_from_square (s : GameUI) (r : GameResult) :
    (handle_move_result s r).1.from_square = s.from_square := by
  unfold handle_move_result handle_game_over; split
  · split <;> rfl
  · rfl

/-- The helper `handle_move_result` sets the terminal message exactly for
non-`Continuing` results. -/
theorem handle_move_result_message (s : GameUI) (r : GameResult) :
    (r.isContinuing = true →
      (handle_move_result s r).1.game_over_message = s.game_over_message) ∧
    (r.isContinuing = false →
      (handle_move_result s r).1.game_over_message = some (game_over_text r)) := by
  cases r with
  | Continuing b =>
      refine ⟨fun _ => ?_, fun h => by simp [GameResult.isContinuing] at h⟩
      simp only [handle_move_result]
      split <;> rfl
  | Victory c => exact ⟨fun h => by simp [GameResult.isContinuing] at h, fun _ => rfl⟩
  | Stalemate => exact ⟨fun h => by simp [GameResult.isContinuing] at h, fun _ => rfl⟩
  | IllegalMove m => exact ⟨fun h => by simp [GameResult.isContinuing] at h, fun _ => rfl⟩

/-- A rejected human move changes nothing at all. -/
theorem play_human_move_illegal (eng : Engine) (s : GameUI) (m : Move)
    (h : eng.is_legal_move s.board m HUMAN_PLAYER = false) :
    play_human_move eng s m = ⟨s, Cmd.none, none⟩ := by
  unfold play_human_move; rw [h]; rfl

/-- An accepted human move records the `play_move` call it made. -/
theorem play_human_move_legal_applied (eng : Engine) (s : GameUI) (m : Move)
    (h : eng.is_legal_move s.board m HUMAN_PLAYER = true) :
    (play_human_move eng s m).applied = some (m, eng.play_move s.board m) := by
  unfold play_human_move; rw [h]; rfl

theorem play_human_move_promotion_state (eng : Engine) (s : GameUI) (m : Move) :
    (play_human_move eng s m).state.promotion_state = s.promotion_state := by
  unfold play_human_move
  split
  · rw [handle_move_result_promotion_state, record_capture_at_promotion_state]
  · rfl

theorem play_human_move_from_square (eng : Engine) (s : GameUI) (m : Move) :
    (play_human_move eng s m).state.from_square = s.from_square := by
  unfold play_human_move
  split
  · rw [handle_move_result_from_square, record_capture_at_from_square]
  · rfl

theorem play_human_move_captured_white (eng : Engine) (s : GameUI) (m : Move) :
    (play_human_move eng s m).state.captured_white
      = (if eng.is_legal_move s.board m HUMAN_PLAYER then
          record_capture_at s s.board (cpu_move_target m) else s).captured_white := by
  unfold play_human_move
  split <;> rename_i h <;> simp [h]
  exact handle_move_result_captured_white _ _

theorem play_human_move_captured_black (eng : Engine) (s : GameUI) (m : Move) :
    (play_human_move eng s m).state.captured_black
      = (if eng.is_legal_move s.board m HUMAN_PLAYER then
          record_capture_at s s.board (cpu_move_target m) else s).captured_black := by
  unfold play_human_move
  split <;> rename_i h <;> simp [h]
  exact handle_move_result_captured_black _ _

/-- The message after a human-move attempt: set exactly when the move
was legal and the engine's answer was not `Continuing`. -/
theorem play_human_move_message (eng : Engine) (s : GameUI) (m : Move)
    (hgo : s.game_over_message = none) :
    (play_human_move eng s m).state.game_over_message.isSome = true ↔
      ∃ m' r, (play_human_move eng s m).applied = some (m', r) ∧
        r.isContinuing = false := by
  unfold play_human_move
  split <;> rename_i hleg
  · simp only
    cases hc : (eng.play_move s.board m).isContinuing with
    | true =>
        rw [(handle_move_result_message _ _).1 hc,
          record_capture_at_message, hgo]
        simp [hc]
    | false =>
        rw [(handle_move_result_message _ _).2 hc]
        simp only [Option.isSome_some, true_iff, Option.some.injEq, Prod.mk.injEq]
        exact ⟨m, eng.play_move s.board m, ⟨rfl, rfl⟩, hc⟩
  · simp [hgo]

/-- The applied move recorded by `play_human_move` is the submitted
move, paired with the engine's answer. -/
theorem play_human_move_applied_eq (eng : Engine) (s : GameUI) (m m' : Move)
    (r : GameResult) (h : (play_human_move eng s m).applied = some (m', r)) :
    m' = m ∧ r = eng.play_move s.board m := by
  unfold play_human_move at h
  split at h
  · simp only [Option.some.injEq, Prod.mk.injEq] at h
    exact ⟨h.1.symm, h.2.symm⟩
  · simp at h

/-- The helper `play_human_move` records an applied move only when the legality
check passed. -/
theorem play_human_move_applied_legal (eng : Engine) (s : GameUI) (m : Move)
    (h : (play_human_move eng s m).applied.isSome = true) :
    eng.is_legal_move s.board m HUMAN_PLAYER = true := by
  unfold play_human_move at h
  split at h
  · assumption
  · simp at h

/-- Off-board squares hold no piece; in particular the sentinel
`(-1, -1)` used for castle moves. -/
theorem get_piece_sentinel (b : Board) : b.get_piece ⟨-1, -1⟩ = none := by
  simp [Board.get_piece]

/-- The capture lists produced by `record_capture_at` depend only on
the input capture lists (and the inspected square). -/
theorem record_capture_at_captures_congr (s s' : GameUI) (b : Board) (p : Position)
    (hw : s'.captured_white = s.captured_white)
    (hb : s'.captured_black = s.captured_black) :
    (record_capture_at s' b p).captured_white
        = (record_capture_at s b p).captured_white ∧
    (record_capture_at s' b p).captured_black
        = (record_capture_at s b p).captured_black := by
  unfold record_capture_at
  cases b.get_piece p with
  | none => exact ⟨hw, hb⟩
  | some q =>
      unfold add_capture
      cases hc : q.get_color <;> simp [hc, hw, hb]

/-- In the game-over state every event except `NewGame` is a strict
no-op, and `NewGame` resets to a fresh game on the starting board. -/
theorem update_of_game_over (eng : Engine) (sb : Board) (s : GameUI)
    (hgo : s.game_over_message.isSome = true) :
    (∀ msg, msg ≠ Message.NewGame → update eng sb s msg = ⟨s, Cmd.none, none⟩) ∧
    update eng sb s Message.NewGame = ⟨initGame sb, Cmd.none, none⟩ := by
  constructor
  · intro msg hne
    cases msg with
    | SelectSquare pos => simp [update, hgo]
    | Promote piece => simp [update, hgo]
    | CpuMove m => simp [update, hgo]
    | NewGame => exact absurd rfl hne
  · simp [update, hgo]

/-! ### Branch equations of `update` -/

theorem update_promote_some (eng : Engine) (sb : Board) (s : GameUI)
    (piece : Piece) (f t : Position)
    (hgo : s.game_over_message = none) (hps : s.promotion_state = some (f, t)) :
    update eng sb s (Message.Promote piece) =
      play_human_move eng { s with promotion_state := none }
        (Move.Promotion f t piece) := by
  simp only [update]
  rw [if_neg (by simp [hgo]), hps]

theorem update_promote_none (eng : Engine) (sb : Board) (s : GameUI) (piece : Piece)
    (hgo : s.game_over_message = none) (hps : s.promotion_state = none) :
    update eng sb s (Message.Promote piece) = ⟨s, Cmd.none, none⟩ := by
  simp only [update]
  rw [if_neg (by simp [hgo]), hps]

theorem update_select_promo_some (eng : Engine) (sb : Board) (s : GameUI)
    (pos : Position) (hgo : s.game_over_message = none)
    (hps : s.promotion_state.isSome = true) :
    update eng sb s (Message.SelectSquare pos) = ⟨s, Cmd.none, none⟩ := by
  simp only [update]
  rw [if_neg (by simp [hgo]), if_pos hps]

theorem update_select_ai_turn (eng : Engine) (sb : Board) (s : GameUI)
    (pos : Position) (hgo : s.game_over_message = none)
    (hps : s.promotion_state = none)
    (ht : ¬ s.board.get_turn_color = HUMAN_PLAYER) :
    update eng sb s (Message.SelectSquare pos) = ⟨s, Cmd.none, none⟩ := by
  simp only [update]
  rw [if_neg (by simp [hgo]), if_neg (by simp [hps]), if_neg ht]

theorem update_select_first_ally (eng : Engine) (sb : Board) (s : GameUI)
    (pos : Position) (hgo : s.game_over_message = none)
    (hps : s.promotion_state = none)
    (ht : s.board.get_turn_color = HUMAN_PLAYER) (hf : s.from_square = none)
    (hall : s.board.has_ally_piece pos HUMAN_PLAYER = true) :
    update eng sb s (Message.SelectSquare pos) =
      ⟨{ s with from_square := some pos }, Cmd.none, none⟩ := by
  simp only [update]
  rw [if_neg (by simp [hgo]), if_neg (by simp [hps]), if_pos ht, hf]
  rw [if_pos hall]

theorem update_select_first_no_ally (eng : Engine) (sb : Board) (s : GameUI)
    (pos : Position) (hgo : s.game_over_message = none)
    (hps : s.promotion_state = none)
    (ht : s.board.get_turn_color = HUMAN_PLAYER) (hf : s.from_square = none)
    (hall : ¬ s.board.has_ally_piece pos HUMAN_PLAYER = true) :
    update eng sb s (Message.SelectSquare pos) = ⟨s, Cmd.none, none⟩ := by
  simp only [update]
  rw [if_neg (by simp [hgo]), if_neg (by simp [hps]), if_pos ht, hf]
  rw [if_neg hall]

theorem update_select_second_promo (eng : Engine) (sb : Board) (s : GameUI)
    (pos f : Position) (hgo : s.game_over_message = none)
    (hps : s.promotion_state = none)
    (ht : s.board.get_turn_color = HUMAN_PLAYER) (hf : s.from_square = some f)
    (hpm : is_promotion_move f pos s.board = true) :
    update eng sb s (Message.SelectSquare pos) =
      ⟨{ s with promotion_state := some (f, pos), from_square := none },
        Cmd.none, none⟩ := by
  simp only [update]
  rw [if_neg (by simp [hgo]), if_neg (by simp [hps]), if_pos ht]
  simp only [hf]
  rw [if_pos hpm]

theorem update_select_second_move (eng : Engine) (sb : Board) (s : GameUI)
    (pos f : Position) (hgo : s.game_over_message = none)
    (hps : s.promotion_state = none)
    (ht : s.board.get_turn_color = HUMAN_PLAYER) (hf : s.from_square = some f)
    (hpm : ¬ is_promotion_move f pos s.board = true) :
    update eng sb s (Message.SelectSquare pos) =
      play_human_move eng { s with from_square := none }
        (determine_move f pos s.board) := by
  simp only [update]
  rw [if_neg (by simp [hgo]), if_neg (by simp [hps]), if_pos ht]
  simp only [hf]
  rw [if_neg hpm]

theorem update_cpu_promo_some (eng : Engine) (sb : Board) (s : GameUI)
    (m : Move) (hgo : s.game_over_message = none)
    (hps : s.promotion_state.isSome = true) :
    update eng sb s (Message.CpuMove m) = ⟨s, Cmd.none, none⟩ := by
  simp only [update]
  rw [if_neg (by simp [hgo]), if_pos hps]

theorem update_cpu_human_turn (eng : Engine) (sb : Board) (s : GameUI)
    (m : Move) (hgo : s.game_over_message = none)
    (hps : s.promotion_state = none)
    (ht : ¬ s.board.get_turn_color = AI_PLAYER) :
    update eng sb s (Message.CpuMove m) = ⟨s, Cmd.none, none⟩ := by
  simp only [update]
  rw [if_neg (by simp [hgo]), if_neg (by simp [hps]), if_neg ht]

theorem update_cpu_continuing (eng : Engine) (sb : Board) (s : GameUI)
    (m : Move) (next : Board) (hgo : s.game_over_message = none)
    (hps : s.promotion_state = none) (ht : s.board.get_turn_color = AI_PLAYER)
    (hres : eng.play_move s.board m = GameResult.Continuing next) :
    update eng sb s (Message.CpuMove m) =
      ⟨{ record_capture_at s s.board (cpu_move_target m) with board := next },
        Cmd.none, some (m, GameResult.Continuing next)⟩ := by
  simp only [update]
  rw [if_neg (by simp [hgo]), if_neg (by simp [hps]), if_pos ht, hres]

theorem update_cpu_terminal (eng : Engine) (sb : Board) (s : GameUI)
    (m : Move) (r : GameResult) (hgo : s.game_over_message = none)
    (hps : s.promotion_state = none) (ht : s.board.get_turn_color = AI_PLAYER)
    (hres : eng.play_move s.board m = r) (hrc : r.isContinuing = false) :
    update eng sb s (Message.CpuMove m) =
      ⟨handle_game_over (record_capture_at s s.board (cpu_move_target m)) r,
        Cmd.none, some (m, r)⟩ := by
  simp only [update]
  rw [if_neg (by simp [hgo]), if_neg (by simp [hps]), if_pos ht, hres]
  cases r with
  | Continuing b => simp [GameResult.isContinuing] at hrc
  | Victory c => rfl
  | Stalemate => rfl
  | IllegalMove m2 => rfl

theorem update_newgame_live (eng : Engine) (sb : Board) (s : GameUI)
    (hgo : s.game_over_message = none) :
    update eng sb s Message.NewGame = ⟨s, Cmd.none, none⟩ := by
  simp only [update]
  rw [if_neg (by simp [hgo])]

/-- Every event either clears the pending promotion, leaves the whole
state untouched, or enters the pending-promotion state — and the last
only happens on the human's turn. -/
theorem update_promo_cases (eng : Engine) (sb : Board) (s : GameUI) (msg : Message) :
    (update eng sb s msg).state.promotion_state = none ∨
    (update eng sb s msg).state = s ∨
    (∃ f pos, (update eng sb s msg).state =
        { s with promotion_state := some (f, pos), from_square := none } ∧
      s.board.get_turn_color = HUMAN_PLAYER) := by
  by_cases hgo : s.game_over_message.isSome = true
  · by_cases hne : msg = Message.NewGame
    · subst hne
      rw [(update_of_game_over eng sb s hgo).2]
      left; rfl
    · rw [(update_of_game_over eng sb s hgo).1 msg hne]
      right; left; rfl
  · have hgo' : s.game_over_message = none := by
      simpa [Option.not_isSome_iff_eq_none] using hgo
    cases msg with
    | Promote piece =>
        cases hp : s.promotion_state with
        | none => rw [update_promote_none eng sb s piece hgo' hp]; right; left; rfl
        | some ft =>
            obtain ⟨f, t⟩ := ft
            rw [update_promote_some eng sb s piece f t hgo' hp]
            left
            rw [play_human_move_promotion_state]
    | SelectSquare pos =>
        by_cases hp : s.promotion_state.isSome = true
        · rw [update_select_promo_some eng sb s pos hgo' hp]; right; left; rfl
        · have hpn : s.promotion_state = none := by
            simpa [Option.not_isSome_iff_eq_none] using hp
          by_cases ht : s.board.get_turn_color = HUMAN_PLAYER
          · cases hf : s.from_square with
            | none =>
                by_cases hall : s.board.has_ally_piece pos HUMAN_PLAYER = true
                · rw [update_select_first_ally eng sb s pos hgo' hpn ht hf hall]
                  left; exact hpn
                · rw [update_select_first_no_ally eng sb s pos hgo' hpn ht hf hall]
                  right; left; rfl
            | some f =>
                by_cases hpm : is_promotion_move f pos s.board = true
                · rw [update_select_second_promo eng sb s pos f hgo' hpn ht hf hpm]
                  right; right; exact ⟨f, pos, rfl, ht⟩
                · rw [update_select_second_move eng sb s pos f hgo' hpn ht hf hpm]
                  left
                  rw [play_human_move_promotion_state]
                  exact hpn
          · rw [update_select_ai_turn eng sb s pos hgo' hpn ht]; right; left; rfl
    | CpuMove m =>
        by_cases hp : s.promotion_state.isSome = true
        · rw [update_cpu_promo_some eng sb s m hgo' hp]; right; left; rfl
        · have hpn : s.promotion_state = none := by
            simpa [Option.not_isSome_iff_eq_none] using hp
          by_cases ht : s.board.get_turn_color = AI_PLAYER
          · cases hres : eng.play_move s.board m with
            | Continuing next =>
                rw [update_cpu_continuing eng sb s m next hgo' hpn ht hres]
                left
                rw [record_capture_at_promotion_state]
                exact hpn
            | Victory c =>
                rw [update_cpu_terminal eng sb s m _ hgo' hpn ht hres rfl]
                left
                simp only [handle_game_over]
                rw [record_capture_at_promotion_state]
                exact hpn
            | Stalemate =>
                rw [update_cpu_terminal eng sb s m _ hgo' hpn ht hres rfl]
                left
                simp only [handle_game_over]
                rw [record_capture_at_promotion_state]
                exact hpn
            | IllegalMove m2 =>
                rw [update_cpu_terminal eng sb s m _ hgo' hpn ht hres rfl]
                left
                simp only [handle_game_over]
                rw [record_capture_at_promotion_state]
                exact hpn
          · rw [update_cpu_human_turn eng sb s m hgo' hpn ht]; right; left; rfl
    | NewGame => rw [update_newgame_live eng sb s hgo']; right; left; rfl

/-- Invariant of every reachable state: a pending promotion only
exists on the human's turn (the pending-promotion state is entered
only under the human-turn guard, and no other event can change the
board while it is pending). -/
theorem reachable_promo_human_turn (eng : Engine) (sb : Board) :
    ∀ s, Reachable eng sb s → s.promotion_state.isSome = true →
      s.board.get_turn_color = HUMAN_PLAYER := by
  intro s h
  induction h with
  | init => intro hps; simp [initGame] at hps
  | step s msg hr ih =>
      intro hps
      rcases update_promo_cases eng sb s msg with h1 | h2 | ⟨f, pos, h3, hturn⟩
      · rw [h1] at hps; simp at hps
      · rw [h2] at hps ⊢; exact ih hps
      · rw [h3]; exact hturn

/-- Whenever an event leads to a `play_move` call, the capture lists
of the new state are exactly those obtained by the pre-apply capture
inspection of `cpu_move_target` on the board current before the
event. -/
theorem update_applied_captures (eng : Engine) (sb : Board) (s : GameUI)
    (msg : Message) (m : Move) (r : GameResult)
    (ha : (update eng sb s msg).applied = some (m, r)) :
    (update eng sb s msg).state.captured_white
        = (record_capture_at s s.board (cpu_move_target m)).captured_white ∧
    (update eng sb s msg).state.captured_black
        = (record_capture_at s s.board (cpu_move_target m)).captured_black := by
  by_cases hgo : s.game_over_message.isSome = true
  · by_cases hne : msg = Message.NewGame
    · subst hne; rw [(update_of_game_over eng sb s hgo).2] at ha; simp at ha
    · rw [(update_of_game_over eng sb s hgo).1 msg hne] at ha; simp at ha
  · have hgo' : s.game_over_message = none := by
      simpa [Option.not_isSome_iff_eq_none] using hgo
    cases msg with
    | NewGame => rw [update_newgame_live eng sb s hgo'] at ha; simp at ha
    | Promote piece =>
        cases hp : s.promotion_state with
        | none => rw [update_promote_none eng sb s piece hgo' hp] at ha; simp at ha
        | some ft =>
            obtain ⟨f, t⟩ := ft
            rw [update_promote_some eng sb s piece f t hgo' hp] at ha ⊢
            have hm := play_human_move_applied_eq eng _ _ m r ha
            have hleg := play_human_move_applied_legal eng _ _ (by rw [ha]; rfl)
            rw [play_human_move_captured_white, play_human_move_captured_black, hleg]
            simp only [if_true]
            rw [hm.1]
            exact record_capture_at_captures_congr s _ _ _ rfl rfl
    | SelectSquare pos =>
        by_cases hp : s.promotion_state.isSome = true
        · rw [update_select_promo_some eng sb s pos hgo' hp] at ha; simp at ha
        · have hpn : s.promotion_state = none := by
            simpa [Option.not_isSome_iff_eq_none] using hp
          by_cases ht : s.board.get_turn_color = HUMAN_PLAYER
          · cases hf : s.from_square with
            | none =>
                by_cases hall : s.board.has_ally_piece pos HUMAN_PLAYER = true
                · rw [update_select_first_ally eng sb s pos hgo' hpn ht hf hall] at ha
                  simp at ha
                · rw [update_select_first_no_ally eng sb s pos hgo' hpn ht hf hall] at ha
                  simp at ha
            | some f =>
                by_cases hpm : is_promotion_move f pos s.board = true
                · rw [update_select_second_promo eng sb s pos f hgo' hpn ht hf hpm] at ha
                  simp at ha
                · rw [update_select_second_move eng sb s pos f hgo' hpn ht hf hpm] at ha ⊢
                  have hm := play_human_move_applied_eq eng _ _ m r ha
                  have hleg := play_human_move_applied_legal eng _ _ (by rw [ha]; rfl)
                  rw [play_human_move_captured_white, play_human_move_captured_black, hleg]
                  simp only [if_true]
                  rw [hm.1]
                  exact record_capture_at_captures_congr s _ _ _ rfl rfl
          · rw [update_select_ai_turn eng sb s pos hgo' hpn ht] at ha; simp at ha
    | CpuMove m0 =>
        by_cases hp : s.promotion_state.isSome = true
        · rw [update_cpu_promo_some eng sb s m0 hgo' hp] at ha; simp at ha
        · have hpn : s.promotion_state = none := by
            simpa [Option.not_isSome_iff_eq_none] using hp
          by_cases ht : s.board.get_turn_color = AI_PLAYER
          · cases hres : eng.play_move s.board m0 with
            | Continuing next =>
                rw [update_cpu_continuing eng sb s m0 next hgo' hpn ht hres] at ha ⊢
                simp only [Option.some.injEq, Prod.mk.injEq] at ha
                rw [← ha.1]
                exact ⟨rfl, rfl⟩
            | Victory c =>
                rw [update_cpu_terminal eng sb s m0 _ hgo' hpn ht hres rfl] at ha ⊢
                simp only [Option.some.injEq, Prod.mk.injEq] at ha
                rw [← ha.1]
                simp [handle_game_over]
            | Stalemate =>
                rw [update_cpu_terminal eng sb s m0 _ hgo' hpn ht hres rfl] at ha ⊢
                simp only [Option.some.injEq, Prod.mk.injEq] at ha
                rw [← ha.1]
                simp [handle_game_over]
            | IllegalMove m2 =>
                rw [update_cpu_terminal eng sb s m0 _ hgo' hpn ht hres rfl] at ha ⊢
                simp only [Option.some.injEq, Prod.mk.injEq] at ha
                rw [← ha.1]
                simp [handle_game_over]
          · rw [update_cpu_human_turn eng sb s m0 hgo' hpn ht] at ha; simp at ha

/-! ### Concrete fixtures used by witnesses and counterexamples -/

/-- An empty board with White to move. -/
def emptyBoard : Board := ⟨fun _ => none, Color.White⟩

/-- An empty board with Black (the opponent source) to move. -/
def blackBoard : Board := ⟨fun _ => none, Color.Black⟩

/-- A board with a white knight on (0,1) and a white rook on (0,3),
White to move. -/
def twoWhitePieces : Board :=
  ⟨fun p => if p = ⟨0, 1⟩ then some (Piece.Knight Color.White ⟨0, 1⟩)
    else if p = ⟨0, 3⟩ then some (Piece.Rook Color.White ⟨0, 3⟩) else none,
   Color.White⟩

/-- A board with a white king on (0,4), White to move. -/
def kingBoard : Board :=
  ⟨fun p => if p = ⟨0, 4⟩ then some (Piece.King Color.White ⟨0, 4⟩) else none,
   Color.White⟩

/-- A board with a white pawn on (4,3), Black to move. -/
def pawnTargetBoard : Board :=
  ⟨fun p => if p = ⟨4, 3⟩ then some (Piece.Pawn Color.White ⟨4, 3⟩) else none,
   Color.Black⟩

/-- A board with a white pawn on (6,0), White to move. -/
def pawnPromoBoard : Board :=
  ⟨fun p => if p = ⟨6, 0⟩ then some (Piece.Pawn Color.White ⟨6, 0⟩) else none,
   Color.White⟩

/-- An adapter that rejects every legality query and reports every
applied move illegal. -/
def engReject : Engine := ⟨fun _ _ _ => false, fun _ m => GameResult.IllegalMove m⟩

/-- An adapter that accepts every move and always continues on the
unchanged board. -/
def engAccept : Engine := ⟨fun _ _ _ => true, fun b _ => GameResult.Continuing b⟩

/-- An adapter that accepts every move and always answers Victory for
White. -/
def engVictory : Engine :=
  ⟨fun _ _ _ => true, fun _ _ => GameResult.Victory Color.White⟩

/-- A controller state already in game over. -/
def gameOverState : GameUI := ⟨emptyBoard, none, none, some "Stalemate!", [], []⟩

/-- A live state with the white knight square (0,1) selected. -/
def selKnightState : GameUI := ⟨twoWhitePieces, some ⟨0, 1⟩, none, none, [], []⟩

/-- A live state with a pending promotion (6,0) → (7,0). -/
def pendingPromoState : GameUI :=
  ⟨pawnPromoBoard, none, some (⟨6, 0⟩, ⟨7, 0⟩), none, [], []⟩

/-- A live state with the pawn square (6,0) selected. -/
def pawnSelState : GameUI := ⟨pawnPromoBoard, some ⟨6, 0⟩, none, none, [], []⟩

/-! ### The claims -/

/-- C6: from the GameOver state, every event other than
NewGameRequested leaves the whole controller state unchanged (and
issues no command), and NewGameRequested resets to awaiting-first-click
on the configured starting board with no selection, no pending
promotion, no terminal message, and both capture lists empty. -/
theorem C6_game_over_reset (eng : Engine) (sb : Board) (s : GameUI)
    (hgo : s.game_over_message.isSome = true) :
    (∀ msg, msg ≠ Message.NewGame → update eng sb s msg = ⟨s, Cmd.none, none⟩) ∧
    update eng sb s Message.NewGame = ⟨initGame sb, Cmd.none, none⟩ ∧
    (initGame sb).board = sb ∧
    (initGame sb).from_square = none ∧
    (initGame sb).promotion_state = none ∧
    (initGame sb).game_over_message = none ∧
    (initGame sb).captured_white = [] ∧
    (initGame sb).captured_black = [] := by
  obtain ⟨h1, h2⟩ := update_of_game_over eng sb s hgo
  exact ⟨h1, h2, rfl, rfl, rfl, rfl, rfl, rfl⟩

/-- Witness for C6 at a concrete game-over state. -/
theorem C6_game_over_reset_witness :
    gameOverState.game_over_message.isSome = true ∧
    update engAccept emptyBoard gameOverState (Message.CpuMove Move.KingSideCastle)
      = ⟨gameOverState, Cmd.none, none⟩ ∧
    update engAccept emptyBoard gameOverState Message.NewGame
      = ⟨initGame emptyBoard, Cmd.none, none⟩ := by
  refine ⟨rfl, ?_, ?_⟩
  · exact (C6_game_over_reset engAccept emptyBoard gameOverState rfl).1
      (Message.CpuMove Move.KingSideCastle) (by intro h; cases h)
  · exact (C6_game_over_reset engAccept emptyBoard gameOverState rfl).2.1

/-- C8: the controller builds a Move from two clicked positions by
inspecting the piece at `from`: a king moving exactly two columns
becomes KingSideCastle when the destination column is greater and
QueenSideCastle otherwise; in every other case the move is
`Move::Piece(from, to)`. -/
theorem C8_determine_move_cases (b : Board) (f t : Position) :
    ((∃ c p, b.get_piece f = some (Piece.King c p)) →
      ((f.col - t.col).natAbs = 2 →
        (t.col > f.col → determine_move f t b = Move.KingSideCastle) ∧
        (¬ t.col > f.col → determine_move f t b = Move.QueenSideCastle)) ∧
      ((f.col - t.col).natAbs ≠ 2 → determine_move f t b = Move.Piece f t)) ∧
    ((∀ c p, ¬ b.get_piece f = some (Piece.King c p)) →
      determine_move f t b = Move.Piece f t) := by
  constructor
  · rintro ⟨c, p, hk⟩
    constructor
    · intro h2
      constructor
      · intro hgt; simp [determine_move, hk, h2, hgt]
      · intro hle; simp [determine_move, hk, h2, hle]
    · intro h2; simp [determine_move, hk, h2]
  · intro hnk
    cases hq : b.get_piece f with
    | none => simp [determine_move, hq]
    | some piece =>
        cases piece with
        | King c p => exact absurd hq (hnk c p)
        | Queen c p => simp [determine_move, hq]
        | Rook c p => simp [determine_move, hq]
        | Bishop c p => simp [determine_move, hq]
        | Knight c p => simp [determine_move, hq]
        | Pawn c p => simp [determine_move, hq]

/-- Witness for C8: the white king on (0,4) clicked to (0,6) becomes
a king-side castle. -/
theorem C8_determine_move_cases_witness :
    (∃ c p, kingBoard.get_piece ⟨0, 4⟩ = some (Piece.King c p)) ∧
    ((⟨0, 4⟩ : Position).col - (⟨0, 6⟩ : Position).col).natAbs = 2 ∧
    determine_move ⟨0, 4⟩ ⟨0, 6⟩ kingBoard = Move.KingSideCastle := by
  refine ⟨⟨Color.White, ⟨0, 4⟩, by decide⟩, by decide, ?_⟩
  exact (((C8_determine_move_cases kingBoard ⟨0, 4⟩ ⟨0, 6⟩).1
    ⟨Color.White, ⟨0, 4⟩, by decide⟩).1 (by decide)).1 (by decide)

/-- C10: an applied castle move (human or opponent) never appends to
either capture list: the pre-apply capture inspection uses the
sentinel position (-1,-1), and the board holds no piece there. -/
theorem C10_castle_no_capture (eng : Engine) (sb : Board) (s : GameUI)
    (msg : Message) (m : Move) (r : GameResult)
    (ha : (update eng sb s msg).applied = some (m, r))
    (hc : m = Move.KingSideCastle ∨ m = Move.QueenSideCastle) :
    cpu_move_target m = ⟨-1, -1⟩ ∧
    s.board.get_piece (cpu_move_target m) = none ∧
    (update eng sb s msg).state.captured_white = s.captured_white ∧
    (update eng sb s msg).state.captured_black = s.captured_black := by
  have htar : cpu_move_target m = ⟨-1, -1⟩ := by
    rcases hc with h | h <;> rw [h] <;> rfl
  have hnone : s.board.get_piece (cpu_move_target m) = none := by
    rw [htar]; exact get_piece_sentinel s.board
  have hcap := update_applied_captures eng sb s msg m r ha
  have hrec := (record_capture_at_captures s s.board (cpu_move_target m)).2 hnone
  exact ⟨htar, hnone, hcap.1.trans hrec.1, hcap.2.trans hrec.2⟩

/-- Witness for C10: an opponent king-side castle applied on the empty
black-to-move board appends nothing. -/
theorem C10_castle_no_capture_witness :
    (update engAccept emptyBoard (initGame blackBoard)
        (Message.CpuMove Move.KingSideCastle)).applied
      = some (Move.KingSideCastle, GameResult.Continuing blackBoard) ∧
    (update engAccept emptyBoard (initGame blackBoard)
        (Message.CpuMove Move.KingSideCastle)).state.captured_white
      = (initGame blackBoard).captured_white := by
  refine ⟨rfl, ?_⟩
  exact (C10_castle_no_capture engAccept emptyBoard (initGame blackBoard)
    (Message.CpuMove Move.KingSideCastle) Move.KingSideCastle
    (GameResult.Continuing blackBoard) rfl (Or.inl rfl)).2.2.1

/-- C3: for every applied move with a destination square (plain move
or promotion), a piece is appended to a capture list iff that square
was occupied on the board immediately before the apply call, and the
piece goes onto the list of its own color — never the mover's. -/
theorem C3_capture_iff_occupied (eng : Engine) (sb : Board) (s : GameUI)
    (msg : Message) (m : Move) (r : GameResult) (f t : Position)
    (ha : (update eng sb s msg).applied = some (m, r))
    (hm : m = Move.Piece f t ∨ ∃ k, m = Move.Promotion f t k) :
    (∀ p, s.board.get_piece t = some p →
      (p.get_color = Color.White →
        (update eng sb s msg).state.captured_white = s.captured_white ++ [p] ∧
        (update eng sb s msg).state.captured_black = s.captured_black) ∧
      (p.get_color = Color.Black →
        (update eng sb s msg).state.captured_black = s.captured_black ++ [p] ∧
        (update eng sb s msg).state.captured_white = s.captured_white)) ∧
    (s.board.get_piece t = none →
      (update eng sb s msg).state.captured_white = s.captured_white ∧
      (update eng sb s msg).state.captured_black = s.captured_black) := by
  have htar : cpu_move_target m = t := by
    rcases hm with h | ⟨k, h⟩ <;> rw [h] <;> rfl
  have hcap := update_applied_captures eng sb s msg m r ha
  rw [htar] at hcap
  have hrec := record_capture_at_captures s s.board t
  constructor
  · intro p hp
    constructor
    · intro hw
      have h1 := (hrec.1 p hp).1 hw
      exact ⟨hcap.1.trans h1.1, hcap.2.trans h1.2⟩
    · intro hb
      have h1 := (hrec.1 p hp).2 hb
      exact ⟨hcap.2.trans h1.2, hcap.1.trans h1.1⟩
  · intro hn
    have h1 := hrec.2 hn
    exact ⟨hcap.1.trans h1.1, hcap.2.trans h1.2⟩

/-- Witness for C3: the opponent moving onto the occupied square (4,3)
appends the white pawn standing there to the white-captured list. -/
theorem C3_capture_iff_occupied_witness :
    (update engAccept emptyBoard (initGame pawnTargetBoard)
        (Message.CpuMove (Move.Piece ⟨6, 3⟩ ⟨4, 3⟩))).applied
      = some (Move.Piece ⟨6, 3⟩ ⟨4, 3⟩, GameResult.Continuing pawnTargetBoard) ∧
    pawnTargetBoard.get_piece ⟨4, 3⟩ = some (Piece.Pawn Color.White ⟨4, 3⟩) ∧
    (update engAccept emptyBoard (initGame pawnTargetBoard)
        (Message.CpuMove (Move.Piece ⟨6, 3⟩ ⟨4, 3⟩))).state.captured_white
      = (initGame pawnTargetBoard).captured_white ++ [Piece.Pawn Color.White ⟨4, 3⟩] := by
  refine ⟨rfl, by decide, ?_⟩
  exact (((C3_capture_iff_occupied engAccept emptyBoard (initGame pawnTargetBoard)
    (Message.CpuMove (Move.Piece ⟨6, 3⟩ ⟨4, 3⟩)) (Move.Piece ⟨6, 3⟩ ⟨4, 3⟩)
    (GameResult.Continuing pawnTargetBoard) ⟨6, 3⟩ ⟨4, 3⟩ rfl (Or.inl rfl)).1
    (Piece.Pawn Color.White ⟨4, 3⟩) (by decide)).1 (by decide)).1

/-- C5 counterexample: with the knight square (0,1) selected, clicking
the own rook square (0,3) does not replace the selection — under a
rejecting adapter the selection ends cleared, and under an accepting
adapter a move is in fact built and applied. -/
theorem C5_counterexample :
    twoWhitePieces.has_ally_piece ⟨0, 3⟩ HUMAN_PLAYER = true ∧
    selKnightState.from_square = some ⟨0, 1⟩ ∧
    (update engReject emptyBoard selKnightState
        (Message.SelectSquare ⟨0, 3⟩)).state.from_square = none ∧
    ¬ (update engReject emptyBoard selKnightState
        (Message.SelectSquare ⟨0, 3⟩)).state.from_square = some ⟨0, 3⟩ ∧
    (update engAccept emptyBoard selKnightState
        (Message.SelectSquare ⟨0, 3⟩)).applied
      = some (Move.Piece ⟨0, 1⟩ ⟨0, 3⟩, GameResult.Continuing twoWhitePieces) := by
  refine ⟨by decide, rfl, rfl, ?_, rfl⟩
  intro h
  rw [show (update engReject emptyBoard selKnightState
      (Message.SelectSquare ⟨0, 3⟩)).state.from_square = none from rfl] at h
  cases h

/-- C5 (amended): with a square already selected, a click on a
different own-color-occupied square does not replace the selection:
for a non-promotion gesture the selection is cleared and the move
built by `determine_move` is attempted through the adapter; if the
adapter rejects it, clearing the selection is the only change. -/
theorem C5_own_color_second_click (eng : Engine) (sb : Board) (s : GameUI)
    (f pos : Position) (hgo : s.game_over_message = none)
    (hp : s.promotion_state = none)
    (ht : s.board.get_turn_color = HUMAN_PLAYER)
    (hf : s.from_square = some f) (hne : pos ≠ f)
    (hall : s.board.has_ally_piece pos HUMAN_PLAYER = true)
    (hpm : ¬ is_promotion_move f pos s.board = true) :
    (update eng sb s (Message.SelectSquare pos)).state.from_square = none ∧
    update eng sb s (Message.SelectSquare pos) =
      play_human_move eng { s with from_square := none }
        (determine_move f pos s.board) ∧
    (eng.is_legal_move s.board (determine_move f pos s.board) HUMAN_PLAYER = false →
      update eng sb s (Message.SelectSquare pos) =
        ⟨{ s with from_square := none }, Cmd.none, none⟩) := by
  have heq := update_select_second_move eng sb s pos f hgo hp ht hf hpm
  refine ⟨?_, heq, ?_⟩
  · rw [heq, play_human_move_from_square]
  · intro hill
    rw [heq]
    exact play_human_move_illegal eng _ _ hill

/-- Witness for the amended C5 at the concrete knight/rook state. -/
theorem C5_own_color_second_click_witness :
    selKnightState.from_square = some ⟨0, 1⟩ ∧
    twoWhitePieces.has_ally_piece ⟨0, 3⟩ HUMAN_PLAYER = true ∧
    (update engReject emptyBoard selKnightState
        (Message.SelectSquare ⟨0, 3⟩)).state.from_square = none := by
  refine ⟨rfl, by decide, ?_⟩
  exact (C5_own_color_second_click engReject emptyBoard selKnightState
    ⟨0, 1⟩ ⟨0, 3⟩ rfl rfl rfl rfl (by decide) (by decide) (by decide)).1

/-- C9 counterexample: a rejected promotion move does change the
pending-promotion component — it is cleared — contradicting the claim
that everything but the selection is left unchanged. -/
theorem C9_counterexample :
    engReject.is_legal_move pendingPromoState.board
        (Move.Promotion ⟨6, 0⟩ ⟨7, 0⟩ (Piece.Queen Color.White ⟨7, 0⟩))
        HUMAN_PLAYER = false ∧
    pendingPromoState.promotion_state = some (⟨6, 0⟩, ⟨7, 0⟩) ∧
    (update engReject emptyBoard pendingPromoState
        (Message.Promote (Piece.Queen Color.White ⟨7, 0⟩))).state.promotion_state
      = none := ⟨rfl, rfl, rfl⟩

/-- C9 (amended): a human move rejected by the legality check changes
nothing except clearing the gesture that produced it: a rejected
second-click move only clears the selection, and a rejected promotion
choice only clears the pending promotion; board, capture lists and
terminal message are unchanged, no capture is inspected and no
opponent request is dispatched. -/
theorem C9_rejected_move_atomic (eng : Engine) (sb : Board) (s : GameUI)
    (hgo : s.game_over_message = none) :
    (∀ f pos, s.promotion_state = none →
      s.board.get_turn_color = HUMAN_PLAYER → s.from_square = some f →
      ¬ is_promotion_move f pos s.board = true →
      eng.is_legal_move s.board (determine_move f pos s.board) HUMAN_PLAYER = false →
      update eng sb s (Message.SelectSquare pos) =
        ⟨{ s with from_square := none }, Cmd.none, none⟩) ∧
    (∀ f t piece, s.promotion_state = some (f, t) →
      eng.is_legal_move s.board (Move.Promotion f t piece) HUMAN_PLAYER = false →
      update eng sb s (Message.Promote piece) =
        ⟨{ s with promotion_state := none }, Cmd.none, none⟩) := by
  constructor
  · intro f pos hp ht hf hpm hill
    rw [update_select_second_move eng sb s pos f hgo hp ht hf hpm]
    exact play_human_move_illegal eng _ _ hill
  · intro f t piece hp hill
    rw [update_promote_some eng sb s piece f t hgo hp]
    exact play_human_move_illegal eng _ _ hill

/-- Witness for the amended C9 at the concrete pending-promotion
state under the rejecting adapter. -/
theorem C9_rejected_move_atomic_witness :
    pendingPromoState.game_over_message = none ∧
    pendingPromoState.promotion_state = some (⟨6, 0⟩, ⟨7, 0⟩) ∧
    update engReject emptyBoard pendingPromoState
        (Message.Promote (Piece.Knight Color.White ⟨7, 0⟩))
      = ⟨{ pendingPromoState with promotion_state := none }, Cmd.none, none⟩ := by
  refine ⟨rfl, rfl, ?_⟩
  exact (C9_rejected_move_atomic engReject emptyBoard pendingPromoState rfl).2
    ⟨6, 0⟩ ⟨7, 0⟩ (Piece.Knight Color.White ⟨7, 0⟩) rfl rfl

/-- C4: a pawn selection followed by a click on its promotion rank
enters the pending-promotion state without consulting the engine (the
outcome is the same literal state for every adapter, with no command
and no apply call); while the promotion is pending every non-Promote
event is a strict no-op; and the move eventually applied by the
Promote event is exactly `Promotion(from, to, chosen)`. -/
theorem C4_promotion_flow (eng : Engine) (sb : Board) (s : GameUI)
    (hgo : s.game_over_message = none) :
    (∀ f pos, s.promotion_state = none → s.from_square = some f →
      s.board.get_turn_color = HUMAN_PLAYER →
      is_promotion_move f pos s.board = true →
      update eng sb s (Message.SelectSquare pos) =
        ⟨{ s with promotion_state := some (f, pos), from_square := none },
          Cmd.none, none⟩) ∧
    (∀ f t, s.promotion_state = some (f, t) →
      (∀ pos, update eng sb s (Message.SelectSquare pos) = ⟨s, Cmd.none, none⟩) ∧
      (∀ m, update eng sb s (Message.CpuMove m) = ⟨s, Cmd.none, none⟩) ∧
      (update eng sb s Message.NewGame = ⟨s, Cmd.none, none⟩) ∧
      (∀ piece m r,
        (update eng sb s (Message.Promote piece)).applied = some (m, r) →
          m = Move.Promotion f t piece)) := by
  constructor
  · intro f pos hp hf ht hpm
    exact update_select_second_promo eng sb s pos f hgo hp ht hf hpm
  · intro f t hp
    have hps : s.promotion_state.isSome = true := by rw [hp]; rfl
    refine ⟨fun pos => update_select_promo_some eng sb s pos hgo hps,
            fun m => update_cpu_promo_some eng sb s m hgo hps,
            update_newgame_live eng sb s hgo, ?_⟩
    intro piece m r hap
    rw [update_promote_some eng sb s piece f t hgo hp] at hap
    exact (play_human_move_applied_eq eng _ _ m r hap).1

/-- Witness for C4: the white pawn on (6,0), selected and clicked to
(7,0), enters the pending-promotion state. -/
theorem C4_promotion_flow_witness :
    pawnSelState.game_over_message = none ∧
    is_promotion_move ⟨6, 0⟩ ⟨7, 0⟩ pawnSelState.board = true ∧
    update engAccept emptyBoard pawnSelState (Message.SelectSquare ⟨7, 0⟩)
      = ⟨{ pawnSelState with promotion_state := some (⟨6, 0⟩, ⟨7, 0⟩), from_square := none }, Cmd.none, none⟩ := by
  refine ⟨rfl, by decide, ?_⟩
  exact (C4_promotion_flow engAccept emptyBoard pawnSelState rfl).1
    ⟨6, 0⟩ ⟨7, 0⟩ rfl rfl rfl (by decide)

/-- C7: in every reachable state in which the opponent's reply is
pending (side-to-move is the opponent's color and the game is not
over), SquareClicked and PromotionPieceChosen events leave the state
unchanged, issue no command and make no engine call. -/
theorem C7_opponent_pending_ignores_input (eng : Engine) (sb : Board)
    (s : GameUI) (hr : Reachable eng sb s)
    (hgo : s.game_over_message = none)
    (ht : s.board.get_turn_color = AI_PLAYER) :
    (∀ pos, update eng sb s (Message.SelectSquare pos) = ⟨s, Cmd.none, none⟩) ∧
    (∀ piece, update eng sb s (Message.Promote piece) = ⟨s, Cmd.none, none⟩) := by
  have hpn : s.promotion_state = none := by
    cases hps : s.promotion_state with
    | none => rfl
    | some ft =>
        have hhm := reachable_promo_human_turn eng sb s hr (by rw [hps]; rfl)
        rw [ht] at hhm
        simp [AI_PLAYER, HUMAN_PLAYER] at hhm
  have hnh : ¬ s.board.get_turn_color = HUMAN_PLAYER := by
    rw [ht]
    simp [AI_PLAYER, HUMAN_PLAYER]
  exact ⟨fun pos => update_select_ai_turn eng sb s pos hgo hpn hnh,
         fun piece => update_promote_none eng sb s piece hgo hpn⟩

/-- Witness for C7: a fresh game on the empty black-to-move board is
reachable, and a click is ignored there. -/
theorem C7_opponent_pending_ignores_input_witness :
    (initGame blackBoard).game_over_message = none ∧
    (initGame blackBoard).board.get_turn_color = AI_PLAYER ∧
    update engAccept blackBoard (initGame blackBoard)
        (Message.SelectSquare ⟨0, 0⟩)
      = ⟨initGame blackBoard, Cmd.none, none⟩ := by
  refine ⟨rfl, rfl, ?_⟩
  exact (C7_opponent_pending_ignores_input engAccept blackBoard
    (initGame blackBoard) Reachable.init rfl rfl).1 ⟨0, 0⟩

/-- C1 counterexample: the adapter answering IllegalMove for the
opponent's move also sets a terminal message, though the result is
neither Victory nor Stalemate. -/
theorem C1_counterexample :
    (update engReject emptyBoard (initGame blackBoard)
        (Message.CpuMove (Move.Piece ⟨0, 0⟩ ⟨1, 1⟩))).applied
      = some (Move.Piece ⟨0, 0⟩ ⟨1, 1⟩,
          GameResult.IllegalMove (Move.Piece ⟨0, 0⟩ ⟨1, 1⟩)) ∧
    (update engReject emptyBoard (initGame blackBoard)
        (Message.CpuMove (Move.Piece ⟨0, 0⟩ ⟨1, 1⟩))).state.game_over_message
      = some "Illegal Move!" := ⟨rfl, rfl⟩

/-- C1 (amended): starting from a non-terminal state, processing an
event sets a terminal message iff the event made a `play_move` call
whose result was not Continuing — Victory, Stalemate or IllegalMove
alike. -/
theorem C1_game_over_iff_terminal_result (eng : Engine) (sb : Board)
    (s : GameUI) (msg : Message) (hgo : s.game_over_message = none) :
    (update eng sb s msg).state.game_over_message.isSome = true ↔
      ∃ m r, (update eng sb s msg).applied = some (m, r) ∧
        r.isContinuing = false := by
  cases msg with
  | Promote piece =>
      cases hp : s.promotion_state with
      | none =>
          rw [update_promote_none eng sb s piece hgo hp]
          simp [hgo]
      | some ft =>
          obtain ⟨f, t⟩ := ft
          rw [update_promote_some eng sb s piece f t hgo hp]
          exact play_human_move_message eng _ _ hgo
  | SelectSquare pos =>
      by_cases hp : s.promotion_state.isSome = true
      · rw [update_select_promo_some eng sb s pos hgo hp]; simp [hgo]
      · have hpn : s.promotion_state = none := by
          simpa [Option.not_isSome_iff_eq_none] using hp
        by_cases ht : s.board.get_turn_color = HUMAN_PLAYER
        · cases hf : s.from_square with
          | none =>
              by_cases hall : s.board.has_ally_piece pos HUMAN_PLAYER = true
              · rw [update_select_first_ally eng sb s pos hgo hpn ht hf hall]
                simp [hgo]
              · rw [update_select_first_no_ally eng sb s pos hgo hpn ht hf hall]
                simp [hgo]
          | some f =>
              by_cases hpm : is_promotion_move f pos s.board = true
              · rw [update_select_second_promo eng sb s pos f hgo hpn ht hf hpm]
                simp [hgo]
              · rw [update_select_second_move eng sb s pos f hgo hpn ht hf hpm]
                exact play_human_move_message eng _ _ hgo
        · rw [update_select_ai_turn eng sb s pos hgo hpn ht]; simp [hgo]
  | CpuMove m0 =>
      by_cases hp : s.promotion_state.isSome = true
      · rw [update_cpu_promo_some eng sb s m0 hgo hp]; simp [hgo]
      · have hpn : s.promotion_state = none := by
          simpa [Option.not_isSome_iff_eq_none] using hp
        by_cases ht : s.board.get_turn_color = AI_PLAYER
        · cases hres : eng.play_move s.board m0 with
          | Continuing next =>
              rw [update_cpu_continuing eng sb s m0 next hgo hpn ht hres]
              have hmsg := record_capture_at_message s s.board (cpu_move_target m0)
              rw [hgo] at hmsg
              simp [hmsg, GameResult.isContinuing]
          | Victory c =>
              rw [update_cpu_terminal eng sb s m0 _ hgo hpn ht hres rfl]
              simp only [handle_game_over, Option.isSome_some, true_iff]
              exact ⟨m0, GameResult.Victory c, rfl, rfl⟩
          | Stalemate =>
              rw [update_cpu_terminal eng sb s m0 _ hgo hpn ht hres rfl]
              simp only [handle_game_over, Option.isSome_some, true_iff]
              exact ⟨m0, GameResult.Stalemate, rfl, rfl⟩
          | IllegalMove m2 =>
              rw [update_cpu_terminal eng sb s m0 _ hgo hpn ht hres rfl]
              simp only [handle_game_over, Option.isSome_some, true_iff]
              exact ⟨m0, GameResult.IllegalMove m2, rfl, rfl⟩
        · rw [update_cpu_human_turn eng sb s m0 hgo hpn ht]; simp [hgo]
  | NewGame => rw [update_newgame_live eng sb s hgo]; simp [hgo]

/-- Witness for the amended C1: a Victory answer from the adapter sets
the terminal message. -/
theorem C1_game_over_iff_terminal_result_witness :
    (initGame blackBoard).game_over_message = none ∧
    ((update engVictory emptyBoard (initGame blackBoard)
        (Message.CpuMove Move.KingSideCastle)).state.game_over_message.isSome = true ↔
      ∃ m r, (update engVictory emptyBoard (initGame blackBoard)
          (Message.CpuMove Move.KingSideCastle)).applied = some (m, r) ∧
        r.isContinuing = false) :=
  ⟨rfl, C1_game_over_iff_terminal_result engVictory emptyBoard
    (initGame blackBoard) (Message.CpuMove Move.KingSideCastle) rfl⟩

/-- C2 counterexample: after the adapter reports the opponent's move
illegal, the controller is in an ordinary GameOver state — the board
unchanged, the message "Illegal Move!" shown — and it still accepts
NewGameRequested and resets, rather than aborting. -/
theorem C2_counterexample :
    (update engReject emptyBoard (initGame blackBoard)
        (Message.CpuMove Move.QueenSideCastle)).state.game_over_message
      = some "Illegal Move!" ∧
    (update engReject emptyBoard (initGame blackBoard)
        (Message.CpuMove Move.QueenSideCastle)).state.board.turn = Color.Black ∧
    (update engReject emptyBoard
        (update engReject emptyBoard (initGame blackBoard)
          (Message.CpuMove Move.QueenSideCastle)).state
        Message.NewGame).state
      = initGame emptyBoard := ⟨rfl, rfl, rfl⟩

/-- C2 (amended): an opponent move reported IllegalMove by the apply
call does not silently corrupt the session — the board is left
unchanged — but neither is it an abort: the controller enters the
ordinary GameOver state with message "Illegal Move!", from which only
NewGameRequested is accepted, resetting the session. -/
theorem C2_illegal_cpu_move_game_over (eng : Engine) (sb : Board) (s : GameUI)
    (m m' : Move) (hgo : s.game_over_message = none)
    (hp : s.promotion_state = none) (ht : s.board.get_turn_color = AI_PLAYER)
    (hres : eng.play_move s.board m = GameResult.IllegalMove m') :
    (update eng sb s (Message.CpuMove m)).state.board = s.board ∧
    (update eng sb s (Message.CpuMove m)).state.game_over_message
      = some "Illegal Move!" ∧
    (update eng sb s (Message.CpuMove m)).cmd = Cmd.none ∧
    (∀ msg2, msg2 ≠ Message.NewGame →
      update eng sb (update eng sb s (Message.CpuMove m)).state msg2
        = ⟨(update eng sb s (Message.CpuMove m)).state, Cmd.none, none⟩) ∧
    update eng sb (update eng sb s (Message.CpuMove m)).state Message.NewGame
      = ⟨initGame sb, Cmd.none, none⟩ := by
  have heq := update_cpu_terminal eng sb s m _ hgo hp ht hres rfl
  have hgate := update_of_game_over eng sb
    (handle_game_over (record_capture_at s s.board (cpu_move_target m))
      (GameResult.IllegalMove m')) rfl
  rw [heq]
  exact ⟨record_capture_at_board s s.board (cpu_move_target m), rfl, rfl,
    hgate.1, hgate.2⟩

/-- Witness for the amended C2 at a concrete state under the rejecting
adapter. -/
theorem C2_illegal_cpu_move_game_over_witness :
    (initGame blackBoard).game_over_message = none ∧
    engReject.play_move (initGame blackBoard).board Move.KingSideCastle
      = GameResult.IllegalMove Move.KingSideCastle ∧
    (update engReject emptyBoard (initGame blackBoard)
        (Message.CpuMove Move.KingSideCastle)).state.game_over_message
      = some "Illegal Move!" := by
  refine ⟨rfl, rfl, ?_⟩
  exact (C2_illegal_cpu_move_game_over engReject emptyBoard (initGame blackBoard)
    Move.KingSideCastle Move.KingSideCastle rfl rfl rfl rfl).2.1

end ChessGui
